import Mathlib

/-!
Shallow embedding of the dense-column view machinery of
src/blaze/math/views/DenseColumn.h (the primary template
DenseColumn<MT,SO,SF> for column-major dense matrices), together with
proofs about its assignment protocol, invariant checks and free functions.

Elements are modelled as integers, matrices as a size-annotated entry
function, dense vectors as lists, and sparse vectors as index-sorted lists
of stored (index, value) pairs. Throwing operations return Except: an
error result models a thrown std::invalid_argument before any mutation,
so the caller's matrix state is unchanged.
-/

namespace BlazeDC

/-- Element type of the embedded matrices and vectors. -/
abbrev Elem := Int

/-- blaze::isDefault on elements: an element is default iff it is zero. -/
def isDefaultElem (e : Elem) : Bool := e == 0

/-- Compile-time structural category of the backing matrix type MT
(the IsRestricted / IsLower / IsUpper / IsDiagonal traits collapsed
into one tag). -/
inductive StructCat where
  | unconstrained
  | lower
  | upper
  | diagonal
deriving DecidableEq

/-- IsLower<MT>::value: true for lower-triangular and diagonal matrices. -/
def StructCat.isLowerCat : StructCat → Bool
  | .lower => true
  | .diagonal => true
  | _ => false

/-- IsUpper<MT>::value: true for upper-triangular and diagonal matrices. -/
def StructCat.isUpperCat : StructCat → Bool
  | .upper => true
  | .diagonal => true
  | _ => false

/-- The backing dense matrix (Storage Adapter): row and column counts plus
an entry function modelling operator()(i,j). -/
structure Mat where
  rows : Nat
  cols : Nat
  entry : Nat → Nat → Elem

/-- A single element write matrix_(i,j) = e. -/
def Mat.set (M : Mat) (i j : Nat) (e : Elem) : Mat :=
  { M with entry := fun a b => if a = i ∧ b = j then e else M.entry a b }

/-- The Storage Adapter primitive matrix_.reset(col): clears every element
of column col (rows 0 .. rows()-1) to the default value. -/
def Mat.resetCol (M : Mat) (col : Nat) : Mat :=
  { M with entry := fun a b => if b = col ∧ a < M.rows then 0 else M.entry a b }

/-- Dense source vectors: element i is read as v.getD i 0. -/
abbrev DVec := List Elem

/-- Sparse source vectors: a size and the list of stored (index, value)
pairs, kept in ascending index order (compressed-vector element list). -/
structure SVec where
  size : Nat
  entries : List (Nat × Elem)

/-- The stored indices of a sparse vector are strictly ascending. -/
def SVec.sortedIdx (v : SVec) : Prop :=
  v.entries.Pairwise (fun a b => a.1 < b.1)

/-- The error taxonomy of the view (each thrown as std::invalid_argument). -/
inductive Err where
  | invalidIndex
  | sizeMismatch
  | invariantViolation
deriving DecidableEq

/-- The Column View handle: the fields matrix_ and col_. -/
structure DenseColumn where
  matrix : Mat
  col : Nat

/-- The DenseColumn constructor (DenseColumn.h lines 654-660): throws
"Invalid column access index" when matrix_.columns() <= index, otherwise
just stores the handle and the index. -/
def mkDenseColumn (M : Mat) (index : Nat) : Except Err DenseColumn :=
  if M.cols ≤ index then .error .invalidIndex
  else .ok { matrix := M, col := index }

/-- DenseColumn::size() (lines 1161-1168): returns matrix_.rows(). -/
def DenseColumn.size (c : DenseColumn) : Nat := c.matrix.rows

/-- operator[] (lines 678-686): element i of the view is matrix_(i, col_). -/
def viewGet (M : Mat) (col i : Nat) : Elem := M.entry i col

/-- A column write loop: for each index i of idxs, in order, perform
matrix_(i, col_) = h (matrix_(i, col_)) i. This is the shape of the
scalar-fallback assign/addAssign/subAssign/multAssign loops (the source
unrolls them by 2, writing the same index sequence 0,1,2,...). -/
def colLoop (M : Mat) (col : Nat) (h : Elem → Nat → Elem) (idxs : List Nat) : Mat :=
  idxs.foldl (fun A i => A.set i col (h (A.entry i col) i)) M

/-- A scatter loop over stored sparse entries: for each stored pair p, in
order, perform matrix_(p.index, col_) = h (matrix_(p.index, col_)) p.val. -/
def scatterLoop {α : Type} (M : Mat) (col : Nat) (h : Elem → α → Elem)
    (es : List (Nat × α)) : Mat :=
  es.foldl (fun A e => A.set e.1 col (h (A.entry e.1 col) e.2)) M

/-- The preservesInvariant overloads for a dense source vector
(lines 1250-1262 unrestricted, 1277-1296 lower, 1347-1366 upper,
1417-1441 diagonal), dispatched here on the structural category.
`rows` is size() = matrix_.rows(), the bound of the upper/diagonal loops. -/
def preservesInvariantDense (cat : StructCat) (col rows : Nat) (v : DVec) : Bool :=
  match cat with
  | .unconstrained => true
  | .lower => (List.range col).all (fun i => isDefaultElem (v.getD i 0))
  | .upper =>
      (List.range' (col + 1) (rows - (col + 1))).all (fun i => isDefaultElem (v.getD i 0))
  | .diagonal =>
      (List.range col).all (fun i => isDefaultElem (v.getD i 0)) &&
      (List.range' (col + 1) (rows - (col + 1))).all (fun i => isDefaultElem (v.getD i 0))

/-- The preservesInvariant overloads for a sparse source vector
(lines 1250-1262 unrestricted, 1311-1332 lower, 1381-1402 upper,
1456-1477 diagonal). The lower overload iterates begin() .. lowerBound(col)
and the upper overload lowerBound(col+1) .. end(), which on the ascending
entry list are takeWhile / dropWhile; the diagonal overload visits every
stored entry and skips index == col. -/
def preservesInvariantSparse (cat : StructCat) (col : Nat) (v : SVec) : Bool :=
  match cat with
  | .unconstrained => true
  | .lower => (v.entries.takeWhile (fun e => e.1 < col)).all (fun e => isDefaultElem e.2)
  | .upper =>
      (v.entries.dropWhile (fun e => e.1 < col + 1)).all (fun e => isDefaultElem e.2)
  | .diagonal => v.entries.all (fun e => e.1 == col || isDefaultElem e.2)

/-- operator=(const ElementType&) (lines 861-873): homogeneous scalar
assignment over i = ibegin .. iend-1 with ibegin = IsLower ? col : 0 and
iend = IsUpper ? col+1 : size(). Never throws. -/
def assignScalar (cat : StructCat) (M : Mat) (col : Nat) (rhs : Elem) : Mat :=
  colLoop M col (fun _ _ => rhs)
    (List.range' (if cat.isLowerCat then col else 0)
      ((if cat.isUpperCat then col + 1 else M.rows) -
        (if cat.isLowerCat then col else 0)))

/-- assign(const DenseVector&) scalar fallback (lines 1742-1760):
matrix_(i, col_) = rhs[i] for i = 0 .. rhs.size()-1. -/
def assignDenseLoop (M : Mat) (col : Nat) (v : DVec) : Mat :=
  colLoop M col (fun _ i => v.getD i 0) (List.range v.length)

/-- addAssign(const DenseVector&) scalar fallback (lines 1853-1871):
matrix_(i, col_) += rhs[i]. -/
def addAssignDenseLoop (M : Mat) (col : Nat) (v : DVec) : Mat :=
  colLoop M col (fun old i => old + v.getD i 0) (List.range v.length)

/-- subAssign(const DenseVector&) scalar fallback (lines 1955-1973):
matrix_(i, col_) -= rhs[i]. -/
def subAssignDenseLoop (M : Mat) (col : Nat) (v : DVec) : Mat :=
  colLoop M col (fun old i => old - v.getD i 0) (List.range v.length)

/-- multAssign(const DenseVector&) scalar fallback (lines 2057-2075):
matrix_(i, col_) *= rhs[i]. -/
def multAssignDenseLoop (M : Mat) (col : Nat) (v : DVec) : Mat :=
  colLoop M col (fun old i => old * v.getD i 0) (List.range v.length)

/-- assign(const SparseVector&) (lines 1826-1838): scatter every stored
value into the column. -/
def assignSparseLoop (M : Mat) (col : Nat) (v : SVec) : Mat :=
  scatterLoop M col (fun _ val => val) v.entries

/-- A dense snapshot of the column (const ResultType tmp( serial(*this) )). -/
def columnSnapshot (M : Mat) (col : Nat) : DVec :=
  (List.range M.rows).map (fun i => M.entry i col)

/-- multAssign(const SparseVector&) (lines 2132-2148): snapshot the column
into tmp, reset() the column, then scatter
matrix_(e.index, col_) = tmp[e.index] * e.value over the stored entries. -/
def multAssignSparse (M : Mat) (col : Nat) (v : SVec) : Mat :=
  scatterLoop (M.resetCol col) col
    (fun _ e => (columnSnapshot M col).getD e.1 0 * e.2)
    (v.entries.map (fun e => (e.1, e)))

/-- operator=(const Vector&) with a dense rhs (lines 928-963): size check,
invariant check, then smpAssign, netted through the assign loop. An error
result models the throw happening strictly before any write. -/
def assignVectorDense (cat : StructCat) (M : Mat) (col : Nat) (v : DVec) :
    Except Err Mat :=
  if M.rows ≠ v.length then .error .sizeMismatch
  else if ! preservesInvariantDense cat col M.rows v then .error .invariantViolation
  else .ok (assignDenseLoop M col v)

/-- operator=(const Vector&) with a sparse rhs (lines 928-963): size check,
invariant check, then reset() (the IsSparseVector branch, lines 946-947)
followed by the sparse assign scatter. -/
def assignVectorSparse (cat : StructCat) (M : Mat) (col : Nat) (v : SVec) :
    Except Err Mat :=
  if M.rows ≠ v.size then .error .sizeMismatch
  else if ! preservesInvariantSparse cat col v then .error .invariantViolation
  else .ok (assignSparseLoop (M.resetCol col) col v)

/-- operator+=(const Vector&) with a dense rhs (lines 980-1013): size check,
invariant check, then smpAddAssign. -/
def addAssignVector (cat : StructCat) (M : Mat) (col : Nat) (v : DVec) :
    Except Err Mat :=
  if M.rows ≠ v.length then .error .sizeMismatch
  else if ! preservesInvariantDense cat col M.rows v then .error .invariantViolation
  else .ok (addAssignDenseLoop M col v)

/-- operator-=(const Vector&) with a dense rhs (lines 1029-1062): size check,
invariant check, then smpSubAssign. -/
def subAssignVector (cat : StructCat) (M : Mat) (col : Nat) (v : DVec) :
    Except Err Mat :=
  if M.rows ≠ v.length then .error .sizeMismatch
  else if ! preservesInvariantDense cat col M.rows v then .error .invariantViolation
  else .ok (subAssignDenseLoop M col v)

/-- operator*=(const Vector&) with a dense rhs (lines 1076-1103): size
check, then smpMultAssign. The source performs no preservesInvariant call
in this operator (its doc comment lists only the size-mismatch exception). -/
def multAssignVector (cat : StructCat) (M : Mat) (col : Nat) (v : DVec) :
    Except Err Mat :=
  if M.rows ≠ v.length then .error .sizeMismatch
  else .ok (multAssignDenseLoop M col v)

/-- operator=(const DenseColumn&) (lines 890-911): self-assignment guard
(&rhs == this, modelled by sameObj), size check, invariant check on the
source column, then smpAssign. The source column is read via its dense
snapshot. -/
def copyAssignColumn (cat : StructCat) (M : Mat) (col : Nat)
    (srcM : Mat) (srcCol : Nat) (sameObj : Bool) : Except Err Mat :=
  if sameObj then .ok M
  else if M.rows ≠ srcM.rows then .error .sizeMismatch
  else if ! preservesInvariantDense cat col M.rows (columnSnapshot srcM srcCol) then
    .error .invariantViolation
  else .ok (assignDenseLoop M col (columnSnapshot srcM srcCol))

/-- The member DenseColumn::reset() (lines 1209-1216): matrix_.reset(col_). -/
def memberReset (M : Mat) (col : Nat) : Mat := M.resetCol col

/-- The free function reset(DenseColumn&) (lines 5784-5791): column.reset(). -/
def resetColumnView (M : Mat) (col : Nat) : Mat := memberReset M col

/-- The free function clear(DenseColumn&) (lines 5803-5810): column.reset(). -/
def clearColumnView (M : Mat) (col : Nat) : Mat := memberReset M col

/-- The free function isDefault(const DenseColumn&) (lines 5831-5839):
true iff every element of the column is the default value. -/
def isDefaultColumn (M : Mat) (col : Nat) : Bool :=
  (List.range M.rows).all (fun i => isDefaultElem (viewGet M col i))

/-- Discriminates a successful operation result. -/
def isOkE (r : Except Err Mat) : Bool :=
  match r with
  | .ok _ => true
  | .error _ => false

/-- The per-category index range that the spec assigns to the homogeneous
scalar assignment: [col, size) for Lower, [0, col] for Upper, the single
index col for Diagonal and [0, size) for Unconstrained. -/
def scalarWriteRange (cat : StructCat) (col rows i : Nat) : Bool :=
  match cat with
  | .unconstrained => i < rows
  | .lower => col ≤ i && i < rows
  | .upper => i ≤ col
  | .diagonal => i == col

/-- A 4x4 unconstrained example matrix (all entries 9). -/
def Mex4 : Mat := { rows := 4, cols := 4, entry := fun _ _ => 9 }

/-- A 5x5 unconstrained example matrix (entry i j = i + j). -/
def Mex5 : Mat := { rows := 5, cols := 5, entry := fun i j => (i : Int) + j }

/-- A 2x2 lower-triangular example matrix (1 on and below the diagonal). -/
def Mlow2 : Mat := { rows := 2, cols := 2, entry := fun i j => if j ≤ i then 1 else 0 }

/-- An example sparse vector of length 5 with the single stored entry
(index 2, value 7). -/
def Sv7 : SVec := { size := 5, entries := [(2, 7)] }

/-- Entry of a single-element write. -/
theorem Mat.set_entry (M : Mat) (i j a b : Nat) (e : Elem) :
    (M.set i j e).entry a b = if a = i ∧ b = j then e else M.entry a b := rfl

/-- Entry after a column reset. -/
theorem Mat.resetCol_entry (M : Mat) (col a b : Nat) :
    (M.resetCol col).entry a b = if b = col ∧ a < M.rows then 0 else M.entry a b := rfl

/-- A column reset does not change the matrix dimensions. -/
theorem Mat.resetCol_rows (M : Mat) (col : Nat) : (M.resetCol col).rows = M.rows := rfl

/-- Element-level default test unfolded. -/
theorem isDefaultElem_iff (e : Elem) : isDefaultElem e = true ↔ e = 0 := by
  simp [isDefaultElem]

/-- The write loops do not change the matrix dimensions. -/
theorem colLoop_rows (col : Nat) (h : Elem → Nat → Elem) (idxs : List Nat) :
    ∀ M : Mat, (colLoop M col h idxs).rows = M.rows := by
  induction idxs with
  | nil => intro M; rfl
  | cons a t ih => intro M; exact ih _

/-- The scatter loops do not change the matrix dimensions. -/
theorem scatterLoop_rows {α : Type} (col : Nat) (h : Elem → α → Elem)
    (es : List (Nat × α)) : ∀ M : Mat, (scatterLoop M col h es).rows = M.rows := by
  induction es with
  | nil => intro M; rfl
  | cons a t ih => intro M; exact ih _

/-- Characterization of a column write loop over the index interval
[a, a+len): inside the interval the entry is rewritten once from its
original value, outside it is untouched. -/
theorem colLoop_range'_entry (col : Nat) (h : Elem → Nat → Elem) :
    ∀ (len a : Nat) (M : Mat) (i j : Nat),
      (colLoop M col h (List.range' a len)).entry i j =
        if j = col ∧ a ≤ i ∧ i < a + len then h (M.entry i col) i else M.entry i j := by
  intro len
  induction len with
  | zero =>
      intro a M i j
      rw [if_neg (by omega)]
      rfl
  | succ n ih =>
      intro a M i j
      rw [List.range'_succ]
      show (colLoop (M.set a col (h (M.entry a col) a)) col h
        (List.range' (a + 1) n)).entry i j = _
      rw [ih (a + 1) (M.set a col (h (M.entry a col) a)) i j]
      rcases eq_or_ne i a with rfl | hia
      · rw [if_neg (by omega), Mat.set_entry]
        by_cases hj : j = col
        · simp [hj]
        · simp [hj]
      · simp only [Mat.set_entry]
        rw [if_neg (show ¬(i = a ∧ True) by simp [hia]),
          if_neg (show ¬(i = a ∧ j = col) by simp [hia])]
        exact if_congr (by omega) rfl rfl

/-- Characterization of a column write loop over [0, n). -/
theorem colLoop_range_entry (col : Nat) (h : Elem → Nat → Elem) (n : Nat)
    (M : Mat) (i j : Nat) :
    (colLoop M col h (List.range n)).entry i j =
      if j = col ∧ i < n then h (M.entry i col) i else M.entry i j := by
  rw [List.range_eq_range', colLoop_range'_entry]
  exact if_congr (by omega) rfl rfl

/-- A scatter loop leaves entries at unstored row indices untouched. -/
theorem scatterLoop_entry_not_mem {α : Type} (col : Nat) (h : Elem → α → Elem) :
    ∀ (es : List (Nat × α)) (M : Mat) (i j : Nat), (∀ e ∈ es, e.1 ≠ i) →
      (scatterLoop M col h es).entry i j = M.entry i j := by
  intro es
  induction es with
  | nil => intro M i j _; rfl
  | cons a t ih =>
      intro M i j hni
      show (scatterLoop (M.set a.1 col (h (M.entry a.1 col) a.2)) col h t).entry i j = _
      rw [ih _ i j (fun e he => hni e (List.mem_cons_of_mem a he))]
      rw [Mat.set_entry, if_neg]
      intro hc
      exact hni a (List.mem_cons_self a t) hc.1.symm

/-- A scatter loop over entries with pairwise distinct row indices rewrites
the entry of each stored index once, from its original value. -/
theorem scatterLoop_entry_mem {α : Type} (col : Nat) (h : Elem → α → Elem) :
    ∀ (es : List (Nat × α)) (M : Mat) (e : Nat × α), e ∈ es →
      (es.map Prod.fst).Nodup → ∀ j,
      (scatterLoop M col h es).entry e.1 j =
        if j = col then h (M.entry e.1 col) e.2 else M.entry e.1 j := by
  intro es
  induction es with
  | nil => intro M e he; exact absurd he (List.not_mem_nil e)
  | cons a t ih =>
      intro M e he hnd j
      rw [List.map_cons, List.nodup_cons] at hnd
      rcases List.mem_cons.1 he with rfl | het
      · show (scatterLoop (M.set e.1 col (h (M.entry e.1 col) e.2)) col h t).entry e.1 j = _
        rw [scatterLoop_entry_not_mem col h t _ e.1 j
          (fun x hx hx1 => hnd.1 (hx1 ▸ List.mem_map_of_mem Prod.fst hx))]
        rw [Mat.set_entry]
        by_cases hj : j = col
        · simp [hj]
        · simp [hj]
      · show (scatterLoop (M.set a.1 col (h (M.entry a.1 col) a.2)) col h t).entry e.1 j = _
        have hne : e.1 ≠ a.1 := by
          intro hq
          exact hnd.1 (hq ▸ List.mem_map_of_mem Prod.fst het)
        rw [ih _ e het hnd.2 j]
        simp [Mat.set_entry, hne]

/-- A dense-range check is a bounded universal default test. -/
theorem all_range_default_iff (col : Nat) (v : DVec) :
    ((List.range col).all (fun i => isDefaultElem (v.getD i 0)) = true) ↔
      ∀ i, i < col → v.getD i 0 = 0 := by
  rw [List.all_eq_true]
  constructor
  · intro hall i hi
    exact (isDefaultElem_iff _).1 (hall i (List.mem_range.2 hi))
  · intro hp i hi
    exact (isDefaultElem_iff _).2 (hp i (List.mem_range.1 hi))

/-- A dense-interval check is a bounded universal default test. -/
theorem all_range'_default_iff (a n : Nat) (v : DVec) :
    ((List.range' a n).all (fun i => isDefaultElem (v.getD i 0)) = true) ↔
      ∀ i, a ≤ i → i < a + n → v.getD i 0 = 0 := by
  rw [List.all_eq_true]
  constructor
  · intro hall i h1 h2
    exact (isDefaultElem_iff _).1 (hall i (List.mem_range'_1.2 ⟨h1, h2⟩))
  · intro hp i hi
    have hm := List.mem_range'_1.1 hi
    exact (isDefaultElem_iff _).2 (hp i hm.1 hm.2)

/-- Reading a dense vector past its length yields the default value. -/
theorem getD_beyond (v : DVec) (i : Nat) (h : v.length ≤ i) : v.getD i 0 = 0 := by
  simp [List.getD_eq_getElem?_getD, List.getElem?_eq_none h]

/-- Reading the column snapshot at an in-bounds index. -/
theorem columnSnapshot_getD (M : Mat) (col i : Nat) (hi : i < M.rows) :
    (columnSnapshot M col).getD i 0 = M.entry i col := by
  simp [columnSnapshot, List.getD_eq_getElem?_getD, List.getElem?_map,
    List.getElem?_range hi]

/-- On an ascending entry list, checking the values seen between begin()
and lowerBound(col) is checking every stored entry of index below col. -/
theorem takeWhile_lt_all_iff (col : Nat) :
    ∀ es : List (Nat × Elem), es.Pairwise (fun a b => a.1 < b.1) →
      ((es.takeWhile (fun e => e.1 < col)).all (fun e => isDefaultElem e.2) = true ↔
        ∀ e ∈ es, e.1 < col → e.2 = 0) := by
  intro es
  induction es with
  | nil => intro _; simp
  | cons a t ih =>
      intro hp
      rw [List.pairwise_cons] at hp
      by_cases ha : a.1 < col
      · rw [List.takeWhile_cons, if_pos (by simpa using ha), List.all_cons,
          Bool.and_eq_true, ih hp.2]
        constructor
        · rintro ⟨h1, h2⟩ e he hecol
          rcases List.mem_cons.1 he with rfl | het
          · exact (isDefaultElem_iff _).1 h1
          · exact h2 e het hecol
        · intro hall
          refine ⟨(isDefaultElem_iff _).2 (hall a (List.mem_cons_self a t) ha), ?_⟩
          exact fun e het hecol => hall e (List.mem_cons_of_mem a het) hecol
      · rw [List.takeWhile_cons, if_neg (by simpa using ha)]
        simp only [List.all_nil, true_iff]
        intro e he hecol
        rcases List.mem_cons.1 he with rfl | het
        · exact absurd hecol ha
        · exact absurd hecol (by have := hp.1 e het; omega)

/-- On an ascending entry list, checking the values seen between
lowerBound(col+1) and end() is checking every stored entry of index
above col. -/
theorem dropWhile_gt_all_iff (col : Nat) :
    ∀ es : List (Nat × Elem), es.Pairwise (fun a b => a.1 < b.1) →
      ((es.dropWhile (fun e => e.1 < col + 1)).all (fun e => isDefaultElem e.2) = true ↔
        ∀ e ∈ es, col < e.1 → e.2 = 0) := by
  intro es
  induction es with
  | nil => intro _; simp
  | cons a t ih =>
      intro hp
      rw [List.pairwise_cons] at hp
      by_cases ha : a.1 < col + 1
      · rw [List.dropWhile_cons, if_pos (by simpa using ha), ih hp.2]
        constructor
        · intro h2 e he hecol
          rcases List.mem_cons.1 he with rfl | het
          · omega
          · exact h2 e het hecol
        · exact fun hall e het hecol => hall e (List.mem_cons_of_mem a het) hecol
      · rw [List.dropWhile_cons, if_neg (by simpa using ha), List.all_cons,
          Bool.and_eq_true]
        constructor
        · rintro ⟨h1, h2⟩ e he hecol
          rcases List.mem_cons.1 he with rfl | het
          · exact (isDefaultElem_iff _).1 h1
          · rw [List.all_eq_true] at h2
            exact (isDefaultElem_iff _).1 (h2 e het)
        · intro hall
          refine ⟨(isDefaultElem_iff _).2 (hall a (List.mem_cons_self a t) (by omega)), ?_⟩
          rw [List.all_eq_true]
          intro e het
          have := hp.1 e het
          exact (isDefaultElem_iff _).2 (hall e (List.mem_cons_of_mem a het) (by omega))

/-- Reduction of a conditional with a literal true Bool condition. -/
theorem ite_true_bool (a b : Nat) : (if (true : Bool) = true then a else b) = a := rfl

/-- Reduction of a conditional with a literal false Bool condition. -/
theorem ite_false_bool (a b : Nat) : (if (false : Bool) = true then a else b) = b := rfl

/-- The diagonal sparse check is a universal default test away from the
diagonal index. -/
theorem all_diag_iff (col : Nat) (es : List (Nat × Elem)) :
    (es.all (fun e => e.1 == col || isDefaultElem e.2) = true) ↔
      ∀ e ∈ es, e.1 ≠ col → e.2 = 0 := by
  rw [List.all_eq_true]
  constructor
  · intro h e he hne
    have := h e he
    rw [Bool.or_eq_true] at this
    rcases this with h1 | h2
    · exact absurd (by simpa using h1) hne
    · exact (isDefaultElem_iff _).1 h2
  · intro h e he
    rw [Bool.or_eq_true]
    by_cases hc : e.1 = col
    · exact Or.inl (by simpa using hc)
    · exact Or.inr ((isDefaultElem_iff _).2 (h e he hc))

/-- A column that has just been reset through the member reset() is
reported default by the free isDefault. -/
theorem isDefaultColumn_memberReset (M : Mat) (col : Nat) :
    isDefaultColumn (memberReset M col) col = true := by
  unfold isDefaultColumn memberReset
  rw [List.all_eq_true]
  intro x hx
  have hi : x < M.rows := List.mem_range.1 hx
  show isDefaultElem (viewGet (M.resetCol col) col x) = true
  unfold viewGet
  rw [Mat.resetCol_entry, if_pos ⟨rfl, hi⟩]
  rfl

/-- Claim C2: the Invariant Checker predicates are pure functions of the
category, the column index and the source: unconstrained always preserved;
lower preserved iff every dense element at index < col (every stored
sparse value at index < col) is default; upper likewise for index > col;
diagonal likewise for index ≠ col. -/
theorem C2_invariantChecker (col rows : Nat) (v : DVec) (sv : SVec)
    (hv : v.length = rows) (hs : sv.sortedIdx) :
    preservesInvariantDense .unconstrained col rows v = true ∧
    (preservesInvariantDense .lower col rows v = true ↔
      ∀ i, i < col → v.getD i 0 = 0) ∧
    (preservesInvariantDense .upper col rows v = true ↔
      ∀ i, col < i → i < rows → v.getD i 0 = 0) ∧
    (preservesInvariantDense .diagonal col rows v = true ↔
      ∀ i, i < rows → i ≠ col → v.getD i 0 = 0) ∧
    preservesInvariantSparse .unconstrained col sv = true ∧
    (preservesInvariantSparse .lower col sv = true ↔
      ∀ e ∈ sv.entries, e.1 < col → e.2 = 0) ∧
    (preservesInvariantSparse .upper col sv = true ↔
      ∀ e ∈ sv.entries, col < e.1 → e.2 = 0) ∧
    (preservesInvariantSparse .diagonal col sv = true ↔
      ∀ e ∈ sv.entries, e.1 ≠ col → e.2 = 0) := by
  refine ⟨rfl, ?_, ?_, ?_, rfl, ?_, ?_, ?_⟩
  · simp only [preservesInvariantDense]
    exact all_range_default_iff col v
  · simp only [preservesInvariantDense]
    rw [all_range'_default_iff]
    constructor
    · intro h i h1 h2
      exact h i (by omega) (by omega)
    · intro h i h1 h2
      exact h i (by omega) (by omega)
  · simp only [preservesInvariantDense, Bool.and_eq_true]
    rw [all_range_default_iff, all_range'_default_iff]
    constructor
    · rintro ⟨h1, h2⟩ i hir hic
      rcases Nat.lt_or_ge i col with hlt | hge
      · exact h1 i hlt
      · exact h2 i (by omega) (by omega)
    · intro h
      constructor
      · intro i hi
        rcases Nat.lt_or_ge i rows with hir | hir
        · exact h i hir (by omega)
        · exact getD_beyond v i (by omega)
      · intro i h1 h2
        exact h i (by omega) (by omega)
  · simp only [preservesInvariantSparse]
    exact takeWhile_lt_all_iff col sv.entries hs
  · simp only [preservesInvariantSparse]
    exact dropWhile_gt_all_iff col sv.entries hs
  · simp only [preservesInvariantSparse]
    exact all_diag_iff col sv.entries

/-- Witness for C2 on a concrete column index, size and sources. -/
theorem C2_invariantChecker_witness :
    preservesInvariantDense .lower 1 3 [0, 5, 0] = true ↔
      ∀ i, i < 1 → (([0, 5, 0] : DVec).getD i 0 = 0) :=
  (C2_invariantChecker 1 3 [0, 5, 0] { size := 3, entries := [(1, 7)] }
    (by decide) (by simp [SVec.sortedIdx])).2.1

/-- Claim C3: constructing a Column View fails with InvalidIndex iff
index >= matrix.columns(); for every index < matrix.columns() it never
throws and the resulting view has size() == matrix.rows(). -/
theorem C3_construct (M : Mat) (index : Nat) :
    (mkDenseColumn M index = .error .invalidIndex ↔ M.cols ≤ index) ∧
    (index < M.cols → mkDenseColumn M index = .ok { matrix := M, col := index }) ∧
    (∀ c, mkDenseColumn M index = .ok c → c.size = M.rows) := by
  unfold mkDenseColumn
  by_cases h : M.cols ≤ index
  · rw [if_pos h]
    refine ⟨⟨fun _ => h, fun _ => rfl⟩, fun hlt => absurd h (by omega), ?_⟩
    intro c hc
    exact absurd hc (by simp)
  · rw [if_neg h]
    refine ⟨⟨fun he => absurd he (by simp), fun hle => absurd hle h⟩,
      fun _ => rfl, ?_⟩
    intro c hc
    have hceq : { matrix := M, col := index : DenseColumn } = c := by
      injection hc
    rw [← hceq]
    rfl

/-- Witness for C3 at a concrete 4x4 matrix and index 2. -/
theorem C3_construct_witness :
    mkDenseColumn Mex4 2 = .ok { matrix := Mex4, col := 2 } ∧
    DenseColumn.size { matrix := Mex4, col := 2 } = 4 := by
  refine ⟨(C3_construct Mex4 2).2.1 (by decide), ?_⟩
  exact (C3_construct Mex4 2).2.2 { matrix := Mex4, col := 2 }
    ((C3_construct Mex4 2).2.1 (by decide))

/-- Claim C4: on a source/destination element-count mismatch every
assignment operator fails with SizeMismatch; the check precedes every
write, so the error result carries no mutated matrix state. -/
theorem C4_sizeMismatch (cat : StructCat) (M : Mat) (col : Nat) (v : DVec)
    (sv : SVec) (srcM : Mat) (srcCol : Nat)
    (hv : v.length ≠ M.rows) (hsv : sv.size ≠ M.rows) (hsrc : srcM.rows ≠ M.rows) :
    assignVectorDense cat M col v = .error .sizeMismatch ∧
    addAssignVector cat M col v = .error .sizeMismatch ∧
    subAssignVector cat M col v = .error .sizeMismatch ∧
    multAssignVector cat M col v = .error .sizeMismatch ∧
    assignVectorSparse cat M col sv = .error .sizeMismatch ∧
    copyAssignColumn cat M col srcM srcCol false = .error .sizeMismatch := by
  have h1 : M.rows ≠ v.length := fun h => hv h.symm
  have h2 : M.rows ≠ sv.size := fun h => hsv h.symm
  have h3 : M.rows ≠ srcM.rows := fun h => hsrc h.symm
  refine ⟨?_, ?_, ?_, ?_, ?_, ?_⟩ <;>
    simp [assignVectorDense, addAssignVector, subAssignVector, multAssignVector,
      assignVectorSparse, copyAssignColumn, h1, h2, h3]

/-- Witness for C4 at concrete mismatched sizes. -/
theorem C4_sizeMismatch_witness :
    assignVectorDense .unconstrained Mex4 0 [1] = .error .sizeMismatch ∧
    copyAssignColumn .unconstrained Mex4 0 Mlow2 0 false = .error .sizeMismatch := by
  have h := C4_sizeMismatch .unconstrained Mex4 0 [1] { size := 2, entries := [] }
    Mlow2 0 (by decide) (by decide) (by decide)
  exact ⟨h.1, h.2.2.2.2.2⟩

/-- Claim C5: homogeneous scalar assignment never throws (it is a total
function) and writes exactly the indices [col, size) for Lower, [0, col]
for Upper, the single index col for Diagonal, and [0, size) for
Unconstrained, within column col; every other matrix element is
unchanged. -/
theorem C5_scalarAssignRange (cat : StructCat) (M : Mat) (col : Nat) (s : Elem)
    (i j : Nat) :
    (assignScalar cat M col s).entry i j =
      if j = col ∧ scalarWriteRange cat col M.rows i = true then s
      else M.entry i j := by
  cases cat
  all_goals
    simp only [assignScalar, StructCat.isLowerCat, StructCat.isUpperCat,
      ite_true_bool, ite_false_bool, if_true, if_false]
    rw [colLoop_range'_entry]
    refine if_congr ?_ rfl rfl
    simp only [scalarWriteRange, Bool.and_eq_true, decide_eq_true_eq, beq_iff_eq]
    omega

/-- Claim C6: round-trip of a dense vector through an Unconstrained-backed
column view: the assignment succeeds, and afterwards every view element
equals the corresponding source element and the backing matrix element. -/
theorem C6_roundTrip (M : Mat) (col : Nat) (v : DVec)
    (hcol : col < M.cols) (hv : v.length = M.rows) :
    assignVectorDense .unconstrained M col v = .ok (assignDenseLoop M col v) ∧
    ∀ i, i < DenseColumn.size { matrix := assignDenseLoop M col v, col := col } →
      viewGet (assignDenseLoop M col v) col i = v.getD i 0 ∧
      viewGet (assignDenseLoop M col v) col i = (assignDenseLoop M col v).entry i col := by
  constructor
  · unfold assignVectorDense
    rw [if_neg (by omega), if_neg (by simp [preservesInvariantDense])]
  · intro i hi
    have hrows : (assignDenseLoop M col v).rows = M.rows := colLoop_rows _ _ _ M
    have hi2 : i < M.rows := by
      rw [← hrows]
      exact hi
    refine ⟨?_, rfl⟩
    show (assignDenseLoop M col v).entry i col = v.getD i 0
    unfold assignDenseLoop
    rw [colLoop_range_entry, if_pos ⟨rfl, by omega⟩]

/-- Witness for C6: the spec scenario of a 4x4 unconstrained matrix,
column 2, dense source [1,2,3,4]. -/
theorem C6_roundTrip_witness :
    assignVectorDense .unconstrained Mex4 2 [1, 2, 3, 4] =
      .ok (assignDenseLoop Mex4 2 [1, 2, 3, 4]) :=
  (C6_roundTrip Mex4 2 [1, 2, 3, 4] (by decide) (by decide)).1

/-- Claim C7: multiplicative assignment by a sparse vector realizes
component-wise-product-with-implicit-zero semantics: each stored entry j
turns the destination element into old[j] * v[j], and every destination
element at an unstored index becomes the default value. -/
theorem C7_multSparseSemantics (M : Mat) (col : Nat) (sv : SVec)
    (hs : sv.sortedIdx) (hb : ∀ e ∈ sv.entries, e.1 < M.rows) :
    (∀ e ∈ sv.entries, (multAssignSparse M col sv).entry e.1 col =
      M.entry e.1 col * e.2) ∧
    (∀ i, i < M.rows → (∀ e ∈ sv.entries, e.1 ≠ i) →
      (multAssignSparse M col sv).entry i col = 0) := by
  have hnd : ((sv.entries.map (fun e => (e.1, e))).map Prod.fst).Nodup := by
    rw [List.map_map]
    show (sv.entries.map (fun e => e.1)).Nodup
    exact List.pairwise_map.mpr (hs.imp (fun hab => Nat.ne_of_lt hab))
  constructor
  · intro e he
    have hmem : (e.1, e) ∈ sv.entries.map (fun e2 => (e2.1, e2)) :=
      List.mem_map_of_mem _ he
    unfold multAssignSparse
    rw [scatterLoop_entry_mem col _ _ _ (e.1, e) hmem hnd col, if_pos rfl]
    show (columnSnapshot M col).getD e.1 0 * e.2 = M.entry e.1 col * e.2
    rw [columnSnapshot_getD M col e.1 (hb e he)]
  · intro i hi hni
    unfold multAssignSparse
    rw [scatterLoop_entry_not_mem]
    · rw [Mat.resetCol_entry, if_pos ⟨rfl, hi⟩]
    · intro p hp
      obtain ⟨e, he, hpe⟩ := List.mem_map.1 hp
      rw [← hpe]
      exact hni e he

/-- Witness for C7: the spec scenario of a sparse source with only index 2
populated (value 7) against a 5-row matrix. -/
theorem C7_multSparseSemantics_witness :
    (multAssignSparse Mex5 0 Sv7).entry 2 0 = Mex5.entry 2 0 * 7 := by
  have h := C7_multSparseSemantics Mex5 0 Sv7 (by simp [Sv7, SVec.sortedIdx])
    (by decide)
  exact h.1 (2, 7) (by decide)

/-- Claim C8: reset(view) clears every element of the column to the
default value, and isDefault(view) evaluated right after reset(view) is
always true. -/
theorem C8_resetIsDefault (M : Mat) (col : Nat) :
    (∀ i, i < M.rows → viewGet (resetColumnView M col) col i = 0) ∧
    isDefaultColumn (resetColumnView M col) col = true := by
  constructor
  · intro i hi
    show (M.resetCol col).entry i col = 0
    rw [Mat.resetCol_entry, if_pos ⟨rfl, hi⟩]
  · exact isDefaultColumn_memberReset M col

/-- Witness for C8 at a concrete matrix and column. -/
theorem C8_resetIsDefault_witness :
    isDefaultColumn (resetColumnView Mex4 1) 1 = true ∧
    viewGet (resetColumnView Mex4 1) 1 0 = 0 :=
  ⟨(C8_resetIsDefault Mex4 1).2, (C8_resetIsDefault Mex4 1).1 0 (by decide)⟩

/-- Claim C9: self-assignment (view = view, the same view object on both
sides) is a no-op: the guard &rhs == this returns immediately, so the
operation does not throw and the backing matrix is returned unchanged. -/
theorem C9_selfAssignNoOp (cat : StructCat) (M : Mat) (col : Nat) :
    copyAssignColumn cat M col M col true = .ok M := rfl

/-- Claim C10: the free function clear(view) is extensionally equal to
reset(view) — both delegate to the member reset — so after clear(view)
every column element is default and isDefault(view) is true. -/
theorem C10_clearEqualsReset :
    (∀ (M : Mat) (col : Nat), clearColumnView M col = resetColumnView M col) ∧
    (∀ (M : Mat) (col : Nat), isDefaultColumn (clearColumnView M col) col = true) :=
  ⟨fun _ _ => rfl, fun M col => isDefaultColumn_memberReset M col⟩

/-- Claim C1 counterexample: on a lower-triangular backing matrix with
col = 1 and the source [5, 7], the Invariant Checker reports a violation
(5 ≠ 0 at index 0 < col), yet operator*= succeeds instead of failing with
InvariantViolation: the source code of operator*= contains no
preservesInvariant call. -/
theorem C1_counterexample :
    preservesInvariantDense .lower 1 Mlow2.rows [5, 7] = false ∧
    multAssignVector .lower Mlow2 1 [5, 7] =
      .ok (multAssignDenseLoop Mlow2 1 [5, 7]) :=
  ⟨by decide, rfl⟩

/-- Claim C1 (amended): for the assigning operators = (copy and vector
forms), += and -= the Invariant Checker runs on the candidate source
before any mutation and a violation fails the operation with
InvariantViolation and no partial write; the vector operator *= performs
no invariant check and never fails with InvariantViolation. -/
theorem C1_invariantCheckProtocol (cat : StructCat) (M : Mat) (col : Nat)
    (v : DVec) (sv : SVec) (srcM : Mat) (srcCol : Nat)
    (hd : v.length = M.rows) (hsv : sv.size = M.rows) (hsrc : srcM.rows = M.rows) :
    (preservesInvariantDense cat col M.rows v = false →
      assignVectorDense cat M col v = .error .invariantViolation ∧
      addAssignVector cat M col v = .error .invariantViolation ∧
      subAssignVector cat M col v = .error .invariantViolation) ∧
    (preservesInvariantSparse cat col sv = false →
      assignVectorSparse cat M col sv = .error .invariantViolation) ∧
    (preservesInvariantDense cat col M.rows (columnSnapshot srcM srcCol) = false →
      copyAssignColumn cat M col srcM srcCol false = .error .invariantViolation) ∧
    multAssignVector cat M col v ≠ .error .invariantViolation := by
  refine ⟨?_, ?_, ?_, ?_⟩
  · intro hpf
    refine ⟨?_, ?_, ?_⟩ <;>
      simp [assignVectorDense, addAssignVector, subAssignVector, hd, hpf]
  · intro hpf
    simp [assignVectorSparse, hsv, hpf]
  · intro hpf
    simp [copyAssignColumn, hsrc, hpf]
  · simp [multAssignVector, hd]

/-- Witness for the amended C1 on a concrete lower-triangular matrix. -/
theorem C1_invariantCheckProtocol_witness :
    assignVectorDense .lower Mlow2 1 [5, 7] = .error .invariantViolation ∧
    multAssignVector .lower Mlow2 1 [5, 7] ≠ .error .invariantViolation := by
  have h := C1_invariantCheckProtocol .lower Mlow2 1 [5, 7]
    { size := 2, entries := [(0, 3)] } Mlow2 0 (by decide) (by decide) rfl
  exact ⟨(h.1 (by decide)).1, h.2.2.2⟩

end BlazeDC
